import Mathlib

/-!
# Verification of the HadithSearcher scraper core (src/main.py)

Shallow embedding of the scraper core of `src/main.py`:
`extract_pagination_info`, `extract_complete_hadith`, `scrape_page`,
`scrape_all_pages`, `build_stats` and the `/search` endpoint handler.

The HTML tree-search primitives of the markup library (`find` / `find_all`
by tag, class, attribute or text regex) are abstracted: a parsed page or
result block is represented by a structure whose fields hold the results
of the library lookups the source performs (an `Option` per `find`, a list
per `find_all`).  Everything downstream of those lookups — the string
processing, guards, field assignments, pagination arithmetic, the crawl
loop with its dedup and stopping rules, and the endpoint's input
validation and error mapping — is translated directly from the source.

The HTTP transport (`requests.Session.get` + `raise_for_status` + parse)
is an external collaborator; it is modelled as an oracle
`fetch : String → Int → Except String Page` where `.error` stands for a
raised `requests.RequestException` (network error, timeout or non-2xx).

The crawl loop (`while True` in Python) is given a fuel parameter; the
loop additionally returns, as ghost data, the list of page numbers it
fetched and the concatenation of the per-page record lists it processed,
so that claims about "pages fetched" and "records processed" can be
stated.  The ghost components never feed back into the computed result.
-/

namespace HadithSearcher

/-- `https://sunnah.com`, the `base_url` of `SunnahScraper.__init__`. -/
def base_url : String := "https://sunnah.com"

/-- Python's `needle in haystack` substring test. -/
def contains_sub (haystack needle : String) : Bool :=
  1 < (haystack.splitOn needle).length

/-- `re.sub(r"^\s*:\s*", "", s)`: strip one leading colon together with the
whitespace around it (no change when no colon starts the string). -/
def strip_leading_colon (s : String) : String :=
  let t := s.dropWhile Char.isWhitespace
  if t.startsWith ":" then (t.drop 1).dropWhile Char.isWhitespace else s

/-- `re.sub(r"^Narrated\s+", "", s)`: drop a leading `Narrated` followed by
at least one whitespace character. -/
def strip_narrated (s : String) : String :=
  if s.startsWith "Narrated" then
    let rest := s.drop 8
    if rest ≠ "" ∧ rest.front.isWhitespace then rest.dropWhile Char.isWhitespace
    else s
  else s

/-- `re.sub(r":$", "", s)`: drop one trailing colon. -/
def strip_colon_end (s : String) : String :=
  if s.endsWith ":" then s.dropRight 1 else s

/-- Python's `str.strip()`: drop leading and trailing whitespace. -/
def py_strip (s : String) : String :=
  String.mk (((s.data.dropWhile Char.isWhitespace).reverse.dropWhile
    Char.isWhitespace).reverse)

/-- A non-empty all-digit character list read as a decimal number. -/
def parse_digits_value (l : List Char) : Option Nat :=
  if l ≠ [] ∧ l.all Char.isDigit then
    some (l.foldl (fun a c => a * 10 + (c.toNat - 48)) 0)
  else none

/-- Python's `int(s)` on an already-stripped string: an optional sign
followed by digits; anything else raises (modelled as `none`). -/
def py_int (s : String) : Option Int :=
  match s.data with
  | '-' :: rest => (parse_digits_value rest).map (fun n => -(n : Int))
  | '+' :: rest => (parse_digits_value rest).map (fun n => (n : Int))
  | l => (parse_digits_value l).map (fun n => (n : Int))

/-- An `<a>` element as used by the extractor: its stripped text and its
`href` attribute (`get("href", "") or ""` makes a missing href `""`). -/
structure Link where
  text : String := ""
  href : String := ""
deriving DecidableEq

/-- A `<td>` cell: its `class` list (`get("class") or []`) and stripped text. -/
structure Td where
  classes : List String := []
  text : String := ""
deriving DecidableEq

/-- A `<tr>` row of the cross-reference table: its `<td>` cells and the
full row text (used for the `"deprecated"` check). -/
structure Tr where
  tds : List Td := []
  row_text : String := ""
deriving DecidableEq

/-- A direct-child `<p>`/`<div>` element of the `text_details` container. -/
structure TextElem where
  classes : List String := []
  text : String := ""
deriving DecidableEq

/-- One result block (a `div.boh` subtree), abstracted as the outcomes of
the tree lookups `extract_complete_hadith` performs on it:
* `urn_digits` — digits captured from the `URN [en] <digits>` comment, when
  the text search finds one;
* `bc_links` — the `a.nounderline` links of the `div.bc_search`, when that
  div is found;
* `ref_sticky_text` — text of `div.hadith_reference_sticky`, when found;
* `main_link_href` — href of the first `<a>` matching `/[a-z]+:\d+`;
* `anchor_name` — `name` attribute of the first named anchor;
* `narrator_text` — text of `div.hadith_narrated`, when found;
* `text_elems` — direct `<p>`/`<div>` children of `div.text_details`;
* `arabic_div` — when `div.arabic_hadith_full` is found, the optional texts
  of its `span.arabic_sanad` and `span.arabic_text_details`;
* `grade_tds` — the `<td>` cells of `table.gradetable`, when found;
* `ref_rows` — the `<tr>` rows of `table.hadith_reference`, when found. -/
structure HadithContainer where
  urn_digits : Option String := none
  bc_links : Option (List Link) := none
  ref_sticky_text : Option String := none
  main_link_href : Option String := none
  anchor_name : Option String := none
  narrator_text : Option String := none
  text_elems : Option (List TextElem) := none
  arabic_div : Option (Option String × Option String) := none
  grade_tds : Option (List Td) := none
  ref_rows : Option (List Tr) := none
deriving DecidableEq

/-- The `ul.yiiPager` control, abstracted as the lookups
`extract_pagination_info` performs on it. -/
structure Pager where
  selected_a_text : Option String := none
  next_classes : Option (List String) := none
  prev_classes : Option (List String) := none
deriving DecidableEq

/-- A parsed search-results page: the captured groups of the
`Showing <start>-<end> of <total>` text when found, the pager control when
found, and the `div.boh` result blocks. -/
structure Page where
  showing : Option (Nat × Nat × Nat) := none
  pager : Option Pager := none
  containers : List HadithContainer := []
deriving DecidableEq

/-- The record dict initialised at the top of `extract_complete_hadith`.
`pages` models the extra key `scrape_page` adds; `none` models key absence. -/
structure Hadith where
  urn : Option String := none
  collection : Option String := none
  collection_url : Option String := none
  book : Option String := none
  book_url : Option String := none
  reference : Option String := none
  hadith_url : Option String := none
  anchor_name : Option String := none
  narrator : Option String := none
  english_text : Option String := none
  arabic_sanad : Option String := none
  arabic_text : Option String := none
  grade_english : Option String := none
  grade_arabic : Option String := none
  in_book_reference : Option String := none
  english_translation_reference : Option String := none
  usc_msa_reference : Option String := none
  is_deprecated_numbering : Bool := false
  page_scraped : Option Int := none
  pages : Option Int := none
deriving DecidableEq

/-- The `pagination_info` dict with its initial defaults. -/
structure PaginationInfo where
  total_results : Nat := 0
  current_page : Int := 1
  total_pages : Nat := 1
  has_next : Bool := false
  has_previous : Bool := false
  results_on_page : Int := 0
deriving DecidableEq

/-- Initial value of `pagination_info` in `extract_pagination_info`. -/
def pag_default : PaginationInfo := {}

/-- The showing-text step of `extract_pagination_info`: when the
`Showing start-end of total` marker was found, set the three derived
fields (`(total + 99) // 100` is the integer ceiling of `total/100`). -/
def apply_showing (page : Page) (pi : PaginationInfo) : PaginationInfo :=
  match page.showing with
  | some (s, e, t) =>
      { pi with
        total_results := t
        results_on_page := (e : Int) - (s : Int) + 1
        total_pages := (t + 99) / 100 }
  | none => pi

/-- The pager step of `extract_pagination_info`: current page from the
selected item's link text (kept at the default on parse failure), and the
next/previous flags from the presence of a not-`hidden` control. -/
def apply_pager (page : Page) (pi : PaginationInfo) : PaginationInfo :=
  match page.pager with
  | none => pi
  | some pg =>
    let pi1 := match pg.selected_a_text with
      | some txt =>
        match py_int (py_strip txt) with
        | some n => { pi with current_page := n }
        | none => pi
      | none => pi
    let pi2 := match pg.next_classes with
      | some cls => if cls.contains "hidden" then pi1 else { pi1 with has_next := true }
      | none => pi1
    match pg.prev_classes with
    | some cls => if cls.contains "hidden" then pi2 else { pi2 with has_previous := true }
    | none => pi2

/-- `extract_pagination_info` (src/main.py lines 36-76). -/
def extract_pagination_info (page : Page) : PaginationInfo :=
  apply_pager page (apply_showing page pag_default)

/-- The URN step of `extract_complete_hadith`. -/
def apply_urn (c : HadithContainer) (h : Hadith) : Hadith :=
  match c.urn_digits with
  | some d => { h with urn := some d }
  | none => h

/-- The breadcrumb (`div.bc_search`) step: first link gives collection name
and URL; second link gives book name (text before a `" - "` separator,
stripped, or the full text) and book URL. -/
def apply_bc_search (c : HadithContainer) (h : Hadith) : Hadith :=
  match c.bc_links with
  | none => h
  | some links =>
    let h1 := match links with
      | [] => h
      | l0 :: _ =>
        { h with
          collection := some l0.text
          collection_url := some (base_url ++ l0.href) }
    match links with
    | _ :: l1 :: _ =>
      let book_text := l1.text
      let book :=
        if contains_sub book_text " - " then ((book_text.splitOn " - ").headD "").trim
        else book_text
      { h1 with book := some book, book_url := some (base_url ++ l1.href) }
    | _ => h1

/-- The sticky-reference step: text of `div.hadith_reference_sticky`. -/
def apply_reference (c : HadithContainer) (h : Hadith) : Hadith :=
  match c.ref_sticky_text with
  | some t => { h with reference := some t }
  | none => h

/-- The canonical-URL step: resolve the matching link's href. -/
def apply_main_link (c : HadithContainer) (h : Hadith) : Hadith :=
  match c.main_link_href with
  | some href => { h with hadith_url := some (base_url ++ href) }
  | none => h

/-- The anchor step: `name` attribute of the first named anchor. -/
def apply_anchor (c : HadithContainer) (h : Hadith) : Hadith :=
  match c.anchor_name with
  | some n => { h with anchor_name := some n }
  | none => h

/-- The narrator step: strip a leading `Narrated ` and a trailing colon. -/
def apply_narrator (c : HadithContainer) (h : Hadith) : Hadith :=
  match c.narrator_text with
  | some t => { h with narrator := some (strip_colon_end (strip_narrated t)) }
  | none => h

/-- The English-body step: join the non-empty texts of the direct children
not classed `hadith_narrated` with single spaces. -/
def apply_text_details (c : HadithContainer) (h : Hadith) : Hadith :=
  match c.text_elems with
  | some elems =>
    let parts :=
      ((elems.filter (fun e => !(e.classes.contains "hadith_narrated"))).map
        (fun e => e.text)).filter (fun t => t ≠ "")
    { h with english_text := some (String.intercalate " " parts) }
  | none => h

/-- The Arabic step: sanad and body spans, each optional. -/
def apply_arabic (c : HadithContainer) (h : Hadith) : Hadith :=
  match c.arabic_div with
  | none => h
  | some (sanad, text) =>
    let h1 := match sanad with
      | some s => { h with arabic_sanad := some s }
      | none => h
    match text with
    | some t => { h1 with arabic_text := some t }
    | none => h1

/-- The body of the grade-table `for td in tds` loop: an `english_grade`
cell sets the English grade unless its text is empty or the literal
placeholder `"Grade:"`; otherwise an `arabic_grade` cell sets the Arabic
grade unless its text is empty or contains the Arabic placeholder word. -/
def apply_grade_td (h : Hadith) (td : Td) : Hadith :=
  if td.classes.contains "english_grade" then
    if td.text ≠ "" ∧ td.text ≠ "Grade:" then { h with grade_english := some td.text } else h
  else if td.classes.contains "arabic_grade" then
    if td.text ≠ "" ∧ contains_sub td.text "حكم" = false then
      { h with grade_arabic := some td.text }
    else h
  else h

/-- The grade-table step: fold the cell loop over all `<td>` cells. -/
def apply_grades (c : HadithContainer) (h : Hadith) : Hadith :=
  match c.grade_tds with
  | some tds => tds.foldl apply_grade_td h
  | none => h

/-- The body of the cross-reference-table `for row in rows` loop. -/
def apply_ref_row (h : Hadith) (row : Tr) : Hadith :=
  match row.tds with
  | td0 :: td1 :: _ =>
    let label := td0.text.toLower
    let value := strip_leading_colon td1.text
    if contains_sub label "in-book" then { h with in_book_reference := some value }
    else if contains_sub label "english translation" then
      { h with english_translation_reference := some value }
    else if contains_sub label "usc-msa" then
      let h1 := { h with usc_msa_reference := some value }
      if contains_sub row.row_text.toLower "deprecated" then
        { h1 with is_deprecated_numbering := true }
      else h1
    else h
  | _ => h

/-- The cross-reference-table step: fold the row loop over all rows. -/
def apply_ref_table (c : HadithContainer) (h : Hadith) : Hadith :=
  match c.ref_rows with
  | some rows => rows.foldl apply_ref_row h
  | none => h

/-- `extract_complete_hadith` (src/main.py lines 78-192): the extraction
steps applied in source order to the freshly initialised record. -/
def extract_complete_hadith (c : HadithContainer) : Hadith :=
  apply_ref_table c (apply_grades c (apply_arabic c (apply_text_details c
    (apply_narrator c (apply_anchor c (apply_main_link c (apply_reference c
      (apply_bc_search c (apply_urn c {})))))))))

/-- Truthiness of `hadith.get("reference")` in the `scrape_page` filter:
the key holds a value and that value is a non-empty string. -/
def hadith_ref_ok (h : Hadith) : Bool :=
  match h.reference with
  | some r => r != ""
  | none => false

/-- The body of the `for container in hadith_containers` loop of
`scrape_page`: extract a record and append it, with the page number stored
under the extra `pages` key, when its reference is truthy. -/
def process_step (pageNo : Int) (acc : List Hadith) (c : HadithContainer) : List Hadith :=
  let h := extract_complete_hadith c
  if hadith_ref_ok h then acc ++ [{ h with pages := some pageNo }] else acc

/-- The pure part of `scrape_page` (src/main.py lines 194-213) after the
transport returned a page: pagination read plus record extraction. -/
def process_page (page : Page) (pageNo : Int) : List Hadith × PaginationInfo :=
  let pagination_info := extract_pagination_info page
  let hadiths := page.containers.foldl (process_step pageNo) []
  (hadiths, pagination_info)

/-- The transport oracle: `session.get` + `raise_for_status` + parsing,
indexed by query and page number.  `.error` stands for a raised
`requests.RequestException` (network error, timeout or non-2xx status). -/
abbrev Fetch := String → Int → Except String Page

/-- `scrape_page` (src/main.py lines 194-213): fetch, then process; a
transport failure propagates. -/
def scrape_page (fetch : Fetch) (query : String) (page : Int) :
    Except String (List Hadith × PaginationInfo) :=
  (fetch query page).map (fun pg => process_page pg page)

/-- The body of the `for h in hadiths` dedup loop of `scrape_all_pages`:
append `h` to the aggregate and record its reference as seen when the
reference is truthy and not seen before. -/
def addHadith (p : List Hadith × List String) (h : Hadith) : List Hadith × List String :=
  match h.reference with
  | some r => if r ≠ "" ∧ r ∉ p.2 then (p.1 ++ [h], r :: p.2) else p
  | none => p

/-- The whole dedup loop over one page's record list. -/
def addAll (p : List Hadith × List String) (hs : List Hadith) : List Hadith × List String :=
  hs.foldl addHadith p

/-- Truthiness test `if max_pages and current_page >= start_page + max_pages - 1`
of the stopping rule: `None` and `0` are falsy. -/
def mp_reached (mp : Option Int) (sp cp : Int) : Bool :=
  match mp with
  | some m => m != 0 && decide (sp + m - 1 ≤ cp)
  | none => false

/-- The `while True` loop of `scrape_all_pages` (src/main.py lines 225-244),
with a fuel parameter standing for the unbounded iteration.  Returns the
loop's result together with two ghost outputs that never influence it: the
list of page numbers for which a fetch was attempted, in order, and the
concatenation of the record lists of the successfully processed pages. -/
def crawl_loop (fetch : Fetch) (query : String) (sp : Int) (mp : Option Int) :
    Nat → Int → List Hadith × List String →
    Except String (List Hadith) × List Int × List Hadith
  | 0, _, p => (.ok p.1, [], [])
  | fuel + 1, cp, p =>
    match scrape_page fetch query cp with
    | .error e => (.error e, [cp], [])
    | .ok (hadiths, pagination_info) =>
      if hadiths.isEmpty then (.ok p.1, [cp], hadiths)
      else
        let p2 := addAll p hadiths
        if mp_reached mp sp cp then (.ok p2.1, [cp], hadiths)
        else if pagination_info.has_next = false then (.ok p2.1, [cp], hadiths)
        else
          let rest := crawl_loop fetch query sp mp fuel (cp + 1) p2
          (rest.1, cp :: rest.2.1, hadiths ++ rest.2.2)

/-- `scrape_all_pages` (src/main.py lines 215-246): run the crawl loop from
`start_page` with empty aggregate and seen-set. -/
def scrape_all_pages (fetch : Fetch) (query : String) (start_page : Int)
    (max_pages : Option Int) (fuel : Nat) : Except String (List Hadith) :=
  (crawl_loop fetch query start_page max_pages fuel start_page ([], [])).1

/-- Ghost output: the page numbers `scrape_all_pages` attempted to fetch. -/
def scrape_pages_trace (fetch : Fetch) (query : String) (start_page : Int)
    (max_pages : Option Int) (fuel : Nat) : List Int :=
  (crawl_loop fetch query start_page max_pages fuel start_page ([], [])).2.1

/-- Ghost output: the records of all successfully processed pages, in page
order, before deduplication. -/
def scrape_pages_raw (fetch : Fetch) (query : String) (start_page : Int)
    (max_pages : Option Int) (fuel : Nat) : List Hadith :=
  (crawl_loop fetch query start_page max_pages fuel start_page ([], [])).2.2

/-- `h.get("collection") or "Unknown"`: `None` and `""` are falsy. -/
def coll_key (h : Hadith) : String :=
  match h.collection with
  | some c => if c = "" then "Unknown" else c
  | none => "Unknown"

/-- `h.get("grade_english") or "Not graded"`. -/
def grade_key (h : Hadith) : String :=
  match h.grade_english with
  | some g => if g = "" then "Not graded" else g
  | none => "Not graded"

/-- `counts[k] = counts.get(k, 0) + 1` over an insertion-ordered mapping. -/
def bump (m : List (String × Nat)) (k : String) : List (String × Nat) :=
  if m.any (fun q => q.1 = k) then
    m.map (fun q => if q.1 = k then (q.1, q.2 + 1) else q)
  else m ++ [(k, 1)]

/-- Stable insertion for descending-by-count order: an entry goes before
the first entry whose count does not exceed it, so equal counts keep their
original relative order (Python's stable `sorted(..., reverse=True)`). -/
def insert_desc (x : String × Nat) : List (String × Nat) → List (String × Nat)
  | [] => [x]
  | y :: ys => if y.2 ≤ x.2 then x :: y :: ys else y :: insert_desc x ys

/-- Stable sort by descending count. -/
def sort_desc : List (String × Nat) → List (String × Nat)
  | [] => []
  | x :: xs => insert_desc x (sort_desc xs)

/-- The `stats` payload of `build_stats`. -/
structure Stats where
  total_hadiths : Nat
  by_collection : List (String × Nat)
  by_grade : List (String × Nat)
deriving DecidableEq

/-- `build_stats` (src/main.py lines 250-265). -/
def build_stats (data : List Hadith) : Stats :=
  let collections := data.foldl (fun m h => bump m (coll_key h)) []
  let grades := data.foldl (fun m h => bump m (grade_key h)) []
  { total_hadiths := data.length
    by_collection := sort_desc collections
    by_grade := sort_desc grades }

/-- `request.args.get("max_pages", "").strip()` followed by
`max(1, int(...))` with parse failure mapping to `None`. -/
def parse_max_pages (s : String) : Option Int :=
  let t := py_strip s
  if t ≠ "" then
    match py_int t with
    | some v => some (max 1 v)
    | none => none
  else none

/-- The response of the `/search` handler: success payload, 400 client
error, or 502 upstream (transport) error. -/
inductive SearchResponse where
  | ok (stats : Stats) (data : List Hadith)
  | clientError (error : String)
  | upstreamError (error details : String)
deriving DecidableEq

/-- The `/search` handler `search` (src/main.py lines 277-302): validate
the query, parse the page cap, crawl from page 1, map a transport failure
to a 502 response.  The second component is the ghost fetched-pages trace
(empty when validation rejects the request before any fetch). -/
def search (fetch : Fetch) (q_raw max_pages_raw : String) (fuel : Nat) :
    SearchResponse × List Int :=
  let q := py_strip q_raw
  if q = "" then (.clientError "Missing required query parameter: q", [])
  else
    let mp := parse_max_pages max_pages_raw
    let r := crawl_loop fetch q 1 mp fuel 1 ([], [])
    match r.1 with
    | .error e => (.upstreamError "Upstream request failed" e, r.2.1)
    | .ok data => (.ok (build_stats data) data, r.2.1)

/-- "Has reference exactly `r`", the dedup key comparison. -/
def ref_is (r : String) (h : Hadith) : Bool := decide (h.reference = some r)

/-- A Boolean view of crawl success. -/
def except_ok (r : Except String (List Hadith)) : Bool :=
  match r with
  | .ok _ => true
  | .error _ => false

/-! ## Concrete fixtures used to evaluate the theorems on real inputs -/

/-- A pager whose next control is present and not hidden. -/
def pager_with_next : Pager := { next_classes := some [] }

/-- A one-record page (reference `"B1"`) that advertises a next page. -/
def pageC1a : Page :=
  { pager := some pager_with_next, containers := [{ ref_sticky_text := some "B1" }] }

/-- A one-record page (reference `"B2"`) with no pager. -/
def pageC1b : Page := { containers := [{ ref_sticky_text := some "B2" }] }

/-- Transport serving `pageC1a` as page 1, `pageC1b` as page 2, and an
empty page beyond. -/
def fetchC1 : Fetch := fun _ p =>
  if p = 1 then .ok pageC1a else if p = 2 then .ok pageC1b else .ok {}

/-- Page 1 of the dedup fixture: references `"A"` then `"B"`, next page
advertised. -/
def pageC2a : Page :=
  { pager := some pager_with_next,
    containers := [{ ref_sticky_text := some "A" }, { ref_sticky_text := some "B" }] }

/-- Page 2 of the dedup fixture: reference `"A"` again (on a block that
also carries an anchor, so the record differs from page 1's) and `"C"`. -/
def pageC2b : Page :=
  { containers := [{ ref_sticky_text := some "A", anchor_name := some "x" },
                   { ref_sticky_text := some "C" }] }

/-- Transport for the dedup fixture. -/
def fetchC2 : Fetch := fun _ p =>
  if p = 1 then .ok pageC2a else if p = 2 then .ok pageC2b else .ok {}

/-- The aggregate the dedup fixture crawl produces. -/
def outC2 : List Hadith :=
  match scrape_all_pages fetchC2 "q" 1 none 10 with
  | .ok l => l
  | .error _ => []

/-- A page with one truthy-reference block, one empty-reference block and
one block without a reference. -/
def pageC3 : Page :=
  { containers := [{ ref_sticky_text := some "Bukhari 1" },
                   { ref_sticky_text := some "" }, {}] }

/-- The single record `pageC3` yields on page 4. -/
def recC3 : Hadith :=
  { extract_complete_hadith { ref_sticky_text := some "Bukhari 1" } with pages := some 4 }

/-- A page whose every fetch advertises a further next page. -/
def pageC5 : Page :=
  { pager := some pager_with_next, containers := [{ ref_sticky_text := some "R5" }] }

/-- Transport serving `pageC5` for every page number. -/
def fetchC5 : Fetch := fun _ _ => .ok pageC5

/-- Page 1 of the halting fixture: one record, next page advertised. -/
def pageC6a : Page :=
  { pager := some pager_with_next, containers := [{ ref_sticky_text := some "X1" }] }

/-- Page 2 of the halting fixture: zero result blocks although a next page
is advertised. -/
def pageC6b : Page := { pager := some pager_with_next, containers := [] }

/-- Transport for the halting fixture. -/
def fetchC6 : Fetch := fun _ p => if p = 1 then .ok pageC6a else .ok pageC6b

/-- A transport that fails every fetch with a timeout. -/
def fetchC8 : Fetch := fun _ _ => .error "timeout"

/-- The concrete page used to instantiate the pagination claim. -/
def pageC4 : Page := { showing := some (101, 200, 250) }

/-- The one-record page of the `pages`-key fixture. -/
def pageC10 : Page := { containers := [{ ref_sticky_text := some "Muslim 7" }] }

/-- The record `pageC10` yields on page 2. -/
def recC10 : Hadith :=
  { extract_complete_hadith { ref_sticky_text := some "Muslim 7" } with pages := some 2 }

/-! ## Lemmas: extraction stages do not touch the ghost/grade fields -/

@[simp] theorem apply_urn_page_scraped (c : HadithContainer) (h : Hadith) :
    (apply_urn c h).page_scraped = h.page_scraped := by
  unfold apply_urn; cases c.urn_digits <;> rfl

@[simp] theorem apply_urn_pages (c : HadithContainer) (h : Hadith) :
    (apply_urn c h).pages = h.pages := by
  unfold apply_urn; cases c.urn_digits <;> rfl

@[simp] theorem apply_urn_grade_english (c : HadithContainer) (h : Hadith) :
    (apply_urn c h).grade_english = h.grade_english := by
  unfold apply_urn; cases c.urn_digits <;> rfl

@[simp] theorem apply_bc_search_page_scraped (c : HadithContainer) (h : Hadith) :
    (apply_bc_search c h).page_scraped = h.page_scraped := by
  unfold apply_bc_search
  rcases c.bc_links with _ | links
  · rfl
  · rcases links with _ | ⟨l0, _ | ⟨l1, tl⟩⟩ <;> rfl

@[simp] theorem apply_bc_search_pages (c : HadithContainer) (h : Hadith) :
    (apply_bc_search c h).pages = h.pages := by
  unfold apply_bc_search
  rcases c.bc_links with _ | links
  · rfl
  · rcases links with _ | ⟨l0, _ | ⟨l1, tl⟩⟩ <;> rfl

@[simp] theorem apply_bc_search_grade_english (c : HadithContainer) (h : Hadith) :
    (apply_bc_search c h).grade_english = h.grade_english := by
  unfold apply_bc_search
  rcases c.bc_links with _ | links
  · rfl
  · rcases links with _ | ⟨l0, _ | ⟨l1, tl⟩⟩ <;> rfl

@[simp] theorem apply_reference_page_scraped (c : HadithContainer) (h : Hadith) :
    (apply_reference c h).page_scraped = h.page_scraped := by
  unfold apply_reference; cases c.ref_sticky_text <;> rfl

@[simp] theorem apply_reference_pages (c : HadithContainer) (h : Hadith) :
    (apply_reference c h).pages = h.pages := by
  unfold apply_reference; cases c.ref_sticky_text <;> rfl

@[simp] theorem apply_reference_grade_english (c : HadithContainer) (h : Hadith) :
    (apply_reference c h).grade_english = h.grade_english := by
  unfold apply_reference; cases c.ref_sticky_text <;> rfl

@[simp] theorem apply_main_link_page_scraped (c : HadithContainer) (h : Hadith) :
    (apply_main_link c h).page_scraped = h.page_scraped := by
  unfold apply_main_link; cases c.main_link_href <;> rfl

@[simp] theorem apply_main_link_pages (c : HadithContainer) (h : Hadith) :
    (apply_main_link c h).pages = h.pages := by
  unfold apply_main_link; cases c.main_link_href <;> rfl

@[simp] theorem apply_main_link_grade_english (c : HadithContainer) (h : Hadith) :
    (apply_main_link c h).grade_english = h.grade_english := by
  unfold apply_main_link; cases c.main_link_href <;> rfl

@[simp] theorem apply_anchor_page_scraped (c : HadithContainer) (h : Hadith) :
    (apply_anchor c h).page_scraped = h.page_scraped := by
  unfold apply_anchor; cases c.anchor_name <;> rfl

@[simp] theorem apply_anchor_pages (c : HadithContainer) (h : Hadith) :
    (apply_anchor c h).pages = h.pages := by
  unfold apply_anchor; cases c.anchor_name <;> rfl

@[simp] theorem apply_anchor_grade_english (c : HadithContainer) (h : Hadith) :
    (apply_anchor c h).grade_english = h.grade_english := by
  unfold apply_anchor; cases c.anchor_name <;> rfl

@[simp] theorem apply_narrator_page_scraped (c : HadithContainer) (h : Hadith) :
    (apply_narrator c h).page_scraped = h.page_scraped := by
  unfold apply_narrator; cases c.narrator_text <;> rfl

@[simp] theorem apply_narrator_pages (c : HadithContainer) (h : Hadith) :
    (apply_narrator c h).pages = h.pages := by
  unfold apply_narrator; cases c.narrator_text <;> rfl

@[simp] theorem apply_narrator_grade_english (c : HadithContainer) (h : Hadith) :
    (apply_narrator c h).grade_english = h.grade_english := by
  unfold apply_narrator; cases c.narrator_text <;> rfl

@[simp] theorem apply_text_details_page_scraped (c : HadithContainer) (h : Hadith) :
    (apply_text_details c h).page_scraped = h.page_scraped := by
  unfold apply_text_details; cases c.text_elems <;> rfl

@[simp] theorem apply_text_details_pages (c : HadithContainer) (h : Hadith) :
    (apply_text_details c h).pages = h.pages := by
  unfold apply_text_details; cases c.text_elems <;> rfl

@[simp] theorem apply_text_details_grade_english (c : HadithContainer) (h : Hadith) :
    (apply_text_details c h).grade_english = h.grade_english := by
  unfold apply_text_details; cases c.text_elems <;> rfl

@[simp] theorem apply_arabic_page_scraped (c : HadithContainer) (h : Hadith) :
    (apply_arabic c h).page_scraped = h.page_scraped := by
  unfold apply_arabic
  rcases c.arabic_div with _ | ⟨_ | s, _ | t⟩ <;> rfl

@[simp] theorem apply_arabic_pages (c : HadithContainer) (h : Hadith) :
    (apply_arabic c h).pages = h.pages := by
  unfold apply_arabic
  rcases c.arabic_div with _ | ⟨_ | s, _ | t⟩ <;> rfl

@[simp] theorem apply_arabic_grade_english (c : HadithContainer) (h : Hadith) :
    (apply_arabic c h).grade_english = h.grade_english := by
  unfold apply_arabic
  rcases c.arabic_div with _ | ⟨_ | s, _ | t⟩ <;> rfl

@[simp] theorem apply_grade_td_page_scraped (h : Hadith) (td : Td) :
    (apply_grade_td h td).page_scraped = h.page_scraped := by
  unfold apply_grade_td; split_ifs <;> rfl

@[simp] theorem apply_grade_td_pages (h : Hadith) (td : Td) :
    (apply_grade_td h td).pages = h.pages := by
  unfold apply_grade_td; split_ifs <;> rfl

@[simp] theorem foldl_grade_page_scraped (tds : List Td) (h : Hadith) :
    (tds.foldl apply_grade_td h).page_scraped = h.page_scraped := by
  induction tds generalizing h with
  | nil => rfl
  | cons td tl ih => simp [List.foldl_cons, ih]

@[simp] theorem foldl_grade_pages (tds : List Td) (h : Hadith) :
    (tds.foldl apply_grade_td h).pages = h.pages := by
  induction tds generalizing h with
  | nil => rfl
  | cons td tl ih => simp [List.foldl_cons, ih]

@[simp] theorem apply_grades_page_scraped (c : HadithContainer) (h : Hadith) :
    (apply_grades c h).page_scraped = h.page_scraped := by
  unfold apply_grades; cases c.grade_tds <;> simp

@[simp] theorem apply_grades_pages (c : HadithContainer) (h : Hadith) :
    (apply_grades c h).pages = h.pages := by
  unfold apply_grades; cases c.grade_tds <;> simp

@[simp] theorem apply_ref_row_page_scraped (h : Hadith) (row : Tr) :
    (apply_ref_row h row).page_scraped = h.page_scraped := by
  unfold apply_ref_row
  rcases row.tds with _ | ⟨td0, _ | ⟨td1, tl⟩⟩
  · rfl
  · rfl
  · dsimp only
    split_ifs <;> rfl

@[simp] theorem apply_ref_row_pages (h : Hadith) (row : Tr) :
    (apply_ref_row h row).pages = h.pages := by
  unfold apply_ref_row
  rcases row.tds with _ | ⟨td0, _ | ⟨td1, tl⟩⟩
  · rfl
  · rfl
  · dsimp only
    split_ifs <;> rfl

@[simp] theorem apply_ref_row_grade_english (h : Hadith) (row : Tr) :
    (apply_ref_row h row).grade_english = h.grade_english := by
  unfold apply_ref_row
  rcases row.tds with _ | ⟨td0, _ | ⟨td1, tl⟩⟩
  · rfl
  · rfl
  · dsimp only
    split_ifs <;> rfl

@[simp] theorem foldl_ref_row_page_scraped (rows : List Tr) (h : Hadith) :
    (rows.foldl apply_ref_row h).page_scraped = h.page_scraped := by
  induction rows generalizing h with
  | nil => rfl
  | cons r tl ih => simp [List.foldl_cons, ih]

@[simp] theorem foldl_ref_row_pages (rows : List Tr) (h : Hadith) :
    (rows.foldl apply_ref_row h).pages = h.pages := by
  induction rows generalizing h with
  | nil => rfl
  | cons r tl ih => simp [List.foldl_cons, ih]

@[simp] theorem foldl_ref_row_grade_english (rows : List Tr) (h : Hadith) :
    (rows.foldl apply_ref_row h).grade_english = h.grade_english := by
  induction rows generalizing h with
  | nil => rfl
  | cons r tl ih => simp [List.foldl_cons, ih]

@[simp] theorem apply_ref_table_page_scraped (c : HadithContainer) (h : Hadith) :
    (apply_ref_table c h).page_scraped = h.page_scraped := by
  unfold apply_ref_table; cases c.ref_rows <;> simp

@[simp] theorem apply_ref_table_pages (c : HadithContainer) (h : Hadith) :
    (apply_ref_table c h).pages = h.pages := by
  unfold apply_ref_table; cases c.ref_rows <;> simp

@[simp] theorem apply_ref_table_grade_english (c : HadithContainer) (h : Hadith) :
    (apply_ref_table c h).grade_english = h.grade_english := by
  unfold apply_ref_table; cases c.ref_rows <;> simp

/-- No extraction stage ever writes `page_scraped`, so it keeps its initial
`None`; likewise the `pages` key is never present in the extractor output. -/
theorem extract_page_scraped_pages (c : HadithContainer) :
    (extract_complete_hadith c).page_scraped = none ∧
    (extract_complete_hadith c).pages = none := by
  unfold extract_complete_hadith
  constructor <;> simp

/-! ## Lemmas: the dedup fold and the crawl loop -/

@[simp] theorem ref_is_iff (r : String) (h : Hadith) :
    ref_is r h = true ↔ h.reference = some r := by simp [ref_is]

@[simp] theorem addAll_nil (p : List Hadith × List String) : addAll p [] = p := rfl

theorem addAll_cons (p : List Hadith × List String) (h : Hadith) (t : List Hadith) :
    addAll p (h :: t) = addAll (addHadith p h) t := rfl

theorem addAll_append (p : List Hadith × List String) (l1 l2 : List Hadith) :
    addAll p (l1 ++ l2) = addAll (addAll p l1) l2 := by
  simp [addAll, List.foldl_append]


/-- Running the dedup loop keeps, for any non-empty reference `r` not yet
seen, exactly the first incoming record carrying `r`; an already-seen `r`
admits no further record. -/
theorem addAll_filter (r : String) (hr : r ≠ "") :
    ∀ (l : List Hadith) (p : List Hadith × List String),
      (addAll p l).1.filter (ref_is r) =
        p.1.filter (ref_is r) ++
          (if r ∈ p.2 then [] else (l.filter (ref_is r)).take 1) := by
  intro l
  induction l with
  | nil => intro p; simp
  | cons h t ih =>
    intro p
    rw [addAll_cons, ih]
    rcases href : h.reference with _ | r2
    · have hstep : addHadith p h = p := by simp [addHadith, href]
      have hf : ref_is r h = false := by simp [ref_is, href]
      simp [hstep, List.filter_cons, hf]
    · by_cases hradd : r2 ≠ "" ∧ r2 ∉ p.2
      · have hstep : addHadith p h = (p.1 ++ [h], r2 :: p.2) := by
          simp [addHadith, href, hradd]
        by_cases hrr : r2 = r
        · have ht : ref_is r h = true := by simp [ref_is, href, hrr]
          have hnotmem : r ∉ p.2 := hrr ▸ hradd.2
          have hmem : r ∈ r2 :: p.2 := by rw [hrr]; exact List.mem_cons_self _ _
          simp [hstep, List.filter_append, List.filter_cons, ht, hmem, hnotmem]
        · have hf : ref_is r h = false := by
            simp only [ref_is, href, decide_eq_false_iff_not]
            exact fun hc => hrr (Option.some.injEq _ _ ▸ hc)
          by_cases hm : r ∈ p.2
          · have hm2 : r ∈ r2 :: p.2 := List.mem_cons_of_mem _ hm
            simp [hstep, List.filter_append, List.filter_cons, hf, hm, hm2]
          · have hm2 : r ∉ r2 :: p.2 := by
              intro hc
              rcases List.mem_cons.mp hc with hc | hc
              · exact hrr hc.symm
              · exact hm hc
            simp [hstep, List.filter_append, List.filter_cons, hf, hm, hm2]
      · have hstep : addHadith p h = p := by
          simp only [addHadith, href, if_neg hradd]
        by_cases hrr : r2 = r
        · have ht : ref_is r h = true := by simp [ref_is, href, hrr]
          have hm : r ∈ p.2 := by
            rcases not_and_or.mp (hrr ▸ hradd) with hc | hc
            · exact (hc hr).elim
            · exact not_not.mp hc
          simp [hstep, List.filter_cons, ht, hm]
        · have hf : ref_is r h = false := by
            simp only [ref_is, href, decide_eq_false_iff_not]
            exact fun hc => hrr (Option.some.injEq _ _ ▸ hc)
          simp [hstep, List.filter_cons, hf]

/-- Every record the dedup loop emits came from its input. -/
theorem addAll_mem :
    ∀ (l : List Hadith) (p : List Hadith × List String) (h : Hadith),
      h ∈ (addAll p l).1 → h ∈ p.1 ∨ h ∈ l := by
  intro l
  induction l with
  | nil => intro p h hm; exact Or.inl hm
  | cons x t ih =>
    intro p h hm
    rw [addAll_cons] at hm
    rcases ih _ _ hm with hm | hm
    · unfold addHadith at hm
      rcases hx : x.reference with _ | r
      · rw [hx] at hm; exact Or.inl hm
      · rw [hx] at hm
        dsimp only at hm
        by_cases hc : r ≠ "" ∧ r ∉ p.2
        · rw [if_pos hc] at hm
          rcases List.mem_append.mp hm with hm | hm
          · exact Or.inl hm
          · simp only [List.mem_singleton] at hm
            exact Or.inr (by simp [hm])
        · rw [if_neg hc] at hm; exact Or.inl hm
    · exact Or.inr (List.mem_cons_of_mem _ hm)

/-- One unfolding step of the crawl loop. -/
theorem crawl_loop_succ (fetch : Fetch) (q : String) (sp : Int) (mp : Option Int)
    (fuel : Nat) (cp : Int) (p : List Hadith × List String) :
    crawl_loop fetch q sp mp (fuel + 1) cp p =
      match scrape_page fetch q cp with
      | .error e => (.error e, [cp], [])
      | .ok (hadiths, pagination_info) =>
        if hadiths.isEmpty then (.ok p.1, [cp], hadiths)
        else
          let p2 := addAll p hadiths
          if mp_reached mp sp cp then (.ok p2.1, [cp], hadiths)
          else if pagination_info.has_next = false then (.ok p2.1, [cp], hadiths)
          else
            let rest := crawl_loop fetch q sp mp fuel (cp + 1) p2
            (rest.1, cp :: rest.2.1, hadiths ++ rest.2.2) := rfl

/-- Step shape: a transport failure at the current page. -/
theorem crawl_step_error {fetch : Fetch} {q : String} {cp : Int} {e : String}
    (sp : Int) (mp : Option Int) (fuel : Nat) (p : List Hadith × List String)
    (hsp : scrape_page fetch q cp = .error e) :
    crawl_loop fetch q sp mp (fuel + 1) cp p = (.error e, [cp], []) := by
  rw [crawl_loop_succ, hsp]

/-- Step shape: current page processed to zero records. -/
theorem crawl_step_empty {fetch : Fetch} {q : String} {cp : Int}
    {hs : List Hadith} {pag : PaginationInfo}
    (sp : Int) (mp : Option Int) (fuel : Nat) (p : List Hadith × List String)
    (hsp : scrape_page fetch q cp = .ok (hs, pag)) (he : hs.isEmpty = true) :
    crawl_loop fetch q sp mp (fuel + 1) cp p = (.ok p.1, [cp], hs) := by
  rw [crawl_loop_succ, hsp]
  simp [he]

/-- Step shape: the `max_pages` stopping rule fires. -/
theorem crawl_step_stop_mp {fetch : Fetch} {q : String} {sp cp : Int} {mp : Option Int}
    {hs : List Hadith} {pag : PaginationInfo}
    (fuel : Nat) (p : List Hadith × List String)
    (hsp : scrape_page fetch q cp = .ok (hs, pag)) (he : hs.isEmpty = false)
    (hmp : mp_reached mp sp cp = true) :
    crawl_loop fetch q sp mp (fuel + 1) cp p = (.ok (addAll p hs).1, [cp], hs) := by
  rw [crawl_loop_succ, hsp]
  simp [he, hmp]

/-- Step shape: no next page according to the pagination state. -/
theorem crawl_step_stop_next {fetch : Fetch} {q : String} {sp cp : Int} {mp : Option Int}
    {hs : List Hadith} {pag : PaginationInfo}
    (fuel : Nat) (p : List Hadith × List String)
    (hsp : scrape_page fetch q cp = .ok (hs, pag)) (he : hs.isEmpty = false)
    (hmp : mp_reached mp sp cp = false) (hnx : pag.has_next = false) :
    crawl_loop fetch q sp mp (fuel + 1) cp p = (.ok (addAll p hs).1, [cp], hs) := by
  rw [crawl_loop_succ, hsp]
  simp [he, hmp, hnx]

/-- Step shape: the crawl advances to the next page. -/
theorem crawl_step_continue {fetch : Fetch} {q : String} {sp cp : Int} {mp : Option Int}
    {hs : List Hadith} {pag : PaginationInfo}
    (fuel : Nat) (p : List Hadith × List String)
    (hsp : scrape_page fetch q cp = .ok (hs, pag)) (he : hs.isEmpty = false)
    (hmp : mp_reached mp sp cp = false) (hnx : pag.has_next = true) :
    crawl_loop fetch q sp mp (fuel + 1) cp p =
      ((crawl_loop fetch q sp mp fuel (cp + 1) (addAll p hs)).1,
       cp :: (crawl_loop fetch q sp mp fuel (cp + 1) (addAll p hs)).2.1,
       hs ++ (crawl_loop fetch q sp mp fuel (cp + 1) (addAll p hs)).2.2) := by
  rw [crawl_loop_succ, hsp]
  simp [he, hmp, hnx]

/-- When the crawl loop succeeds, its aggregate is exactly the dedup fold
over the ghost concatenation of the processed pages' record lists. -/
theorem crawl_ok_addAll (fetch : Fetch) (q : String) (sp : Int) (mp : Option Int) :
    ∀ (fuel : Nat) (cp : Int) (p : List Hadith × List String) (out : List Hadith),
      (crawl_loop fetch q sp mp fuel cp p).1 = .ok out →
      out = (addAll p (crawl_loop fetch q sp mp fuel cp p).2.2).1 := by
  intro fuel
  induction fuel with
  | zero =>
    intro cp p out h
    simp only [crawl_loop, Except.ok.injEq] at h
    subst h
    rfl
  | succ fuel ih =>
    intro cp p out h
    cases hsp : scrape_page fetch q cp with
    | error e =>
      rw [crawl_step_error sp mp fuel p hsp] at h
      exact absurd h (by simp)
    | ok pr =>
      obtain ⟨hs, pag⟩ := pr
      by_cases hemp : hs.isEmpty
      · rw [crawl_step_empty sp mp fuel p hsp hemp] at h
        simp only [Except.ok.injEq] at h
        subst h
        rw [crawl_step_empty sp mp fuel p hsp hemp]
        have : hs = [] := List.isEmpty_iff.mp hemp
        simp [this]
      · have hemp' : hs.isEmpty = false := by
          cases hval : hs.isEmpty
          · rfl
          · exact absurd hval hemp
        by_cases hmp : mp_reached mp sp cp
        · rw [crawl_step_stop_mp fuel p hsp hemp' hmp] at h
          simp only [Except.ok.injEq] at h
          subst h
          rw [crawl_step_stop_mp fuel p hsp hemp' hmp]
        · have hmp' : mp_reached mp sp cp = false := by
            cases hval : mp_reached mp sp cp
            · rfl
            · exact absurd hval hmp
          cases hnx : pag.has_next with
          | false =>
            rw [crawl_step_stop_next fuel p hsp hemp' hmp' hnx] at h
            simp only [Except.ok.injEq] at h
            subst h
            rw [crawl_step_stop_next fuel p hsp hemp' hmp' hnx]
          | true =>
            rw [crawl_step_continue fuel p hsp hemp' hmp' hnx] at h ⊢
            have := ih (cp + 1) (addAll p hs) out h
            rw [this, addAll_append]


/-- A successful `scrape_page` means the transport returned a page and the
records are its processed output. -/
theorem scrape_page_ok_inv {fetch : Fetch} {q : String} {cp : Int}
    {hs : List Hadith} {pag : PaginationInfo}
    (hsp : scrape_page fetch q cp = .ok (hs, pag)) :
    ∃ pg, fetch q cp = .ok pg ∧ hs = (process_page pg cp).1 := by
  unfold scrape_page at hsp
  cases hf : fetch q cp with
  | error e => rw [hf] at hsp; exact absurd hsp (by simp [Except.map])
  | ok pg =>
    rw [hf] at hsp
    have hpp : process_page pg cp = (hs, pag) := by
      simpa [Except.map] using hsp
    exact ⟨pg, rfl, by rw [hpp]⟩

/-- A failed `scrape_page` means the transport failed with that error. -/
theorem scrape_page_error_inv {fetch : Fetch} {q : String} {cp : Int} {e : String}
    (hsp : scrape_page fetch q cp = .error e) : fetch q cp = .error e := by
  unfold scrape_page at hsp
  cases hf : fetch q cp with
  | error e2 =>
    rw [hf] at hsp
    have : e2 = e := by simpa [Except.map] using hsp
    rw [this]
  | ok pg => rw [hf] at hsp; exact absurd hsp (by simp [Except.map])

/-- Every ghost raw record of a crawl comes from the processed output of a
successfully fetched page. -/
theorem crawl_raw_mem (fetch : Fetch) (q : String) (sp : Int) (mp : Option Int) :
    ∀ (fuel : Nat) (cp : Int) (p : List Hadith × List String) (h : Hadith),
      h ∈ (crawl_loop fetch q sp mp fuel cp p).2.2 →
      ∃ (pn : Int) (pg : Page), fetch q pn = .ok pg ∧ h ∈ (process_page pg pn).1 := by
  intro fuel
  induction fuel with
  | zero =>
    intro cp p h hm
    simp [crawl_loop] at hm
  | succ fuel ih =>
    intro cp p h hm
    cases hsp : scrape_page fetch q cp with
    | error e =>
      rw [crawl_step_error sp mp fuel p hsp] at hm
      simp at hm
    | ok pr =>
      obtain ⟨hs, pag⟩ := pr
      obtain ⟨pg, hf, hhs⟩ := scrape_page_ok_inv hsp
      by_cases hemp : hs.isEmpty
      · rw [crawl_step_empty sp mp fuel p hsp hemp] at hm
        exact ⟨cp, pg, hf, hhs ▸ hm⟩
      · have hemp2 : hs.isEmpty = false := by
          cases hval : hs.isEmpty
          · rfl
          · exact absurd hval hemp
        by_cases hmp : mp_reached mp sp cp
        · rw [crawl_step_stop_mp fuel p hsp hemp2 hmp] at hm
          exact ⟨cp, pg, hf, hhs ▸ hm⟩
        · have hmp2 : mp_reached mp sp cp = false := by
            cases hval : mp_reached mp sp cp
            · rfl
            · exact absurd hval hmp
          cases hnx : pag.has_next with
          | false =>
            rw [crawl_step_stop_next fuel p hsp hemp2 hmp2 hnx] at hm
            exact ⟨cp, pg, hf, hhs ▸ hm⟩
          | true =>
            rw [crawl_step_continue fuel p hsp hemp2 hmp2 hnx] at hm
            rcases List.mem_append.mp hm with hm | hm
            · exact ⟨cp, pg, hf, hhs ▸ hm⟩
            · exact ih (cp + 1) (addAll p hs) h hm

/-- A crawl with fuel always attempts its current page first. -/
theorem crawl_trace_head (fetch : Fetch) (q : String) (sp : Int) (mp : Option Int) :
    ∀ (fuel : Nat) (cp : Int) (p : List Hadith × List String), 1 ≤ fuel →
      (crawl_loop fetch q sp mp fuel cp p).2.1.head? = some cp := by
  intro fuel
  cases fuel with
  | zero => intro cp p hfuel; omega
  | succ fuel =>
    intro cp p _
    cases hsp : scrape_page fetch q cp with
    | error e => rw [crawl_step_error sp mp fuel p hsp]; rfl
    | ok pr =>
      obtain ⟨hs, pag⟩ := pr
      by_cases hemp : hs.isEmpty
      · rw [crawl_step_empty sp mp fuel p hsp hemp]; rfl
      · have hemp2 : hs.isEmpty = false := by
          cases hval : hs.isEmpty
          · rfl
          · exact absurd hval hemp
        by_cases hmp : mp_reached mp sp cp
        · rw [crawl_step_stop_mp fuel p hsp hemp2 hmp]; rfl
        · have hmp2 : mp_reached mp sp cp = false := by
            cases hval : mp_reached mp sp cp
            · rfl
            · exact absurd hval hmp
          cases hnx : pag.has_next with
          | false => rw [crawl_step_stop_next fuel p hsp hemp2 hmp2 hnx]; rfl
          | true => rw [crawl_step_continue fuel p hsp hemp2 hmp2 hnx]; rfl

/-- With a page cap that is nonzero and at most 1, the stopping rule fires
on the very first page: at most one page is ever fetched. -/
theorem crawl_trace_short (fetch : Fetch) (q : String) (sp : Int) (m : Int)
    (hm1 : m ≤ 1) (hm0 : m ≠ 0) :
    ∀ (fuel : Nat) (cp : Int) (p : List Hadith × List String), sp ≤ cp →
      (crawl_loop fetch q sp (some m) fuel cp p).2.1.length ≤ 1 := by
  intro fuel
  cases fuel with
  | zero => intro cp p hcp; simp [crawl_loop]
  | succ fuel =>
    intro cp p hcp
    have hmp : mp_reached (some m) sp cp = true := by
      simp only [mp_reached, Bool.and_eq_true, bne_iff_ne, ne_eq, decide_eq_true_eq]
      exact ⟨hm0, by omega⟩
    cases hsp : scrape_page fetch q cp with
    | error e => rw [crawl_step_error sp (some m) fuel p hsp]; simp
    | ok pr =>
      obtain ⟨hs, pag⟩ := pr
      by_cases hemp : hs.isEmpty
      · rw [crawl_step_empty sp (some m) fuel p hsp hemp]; simp
      · have hemp2 : hs.isEmpty = false := by
          cases hval : hs.isEmpty
          · rfl
          · exact absurd hval hemp
        rw [crawl_step_stop_mp fuel p hsp hemp2 hmp]; simp

/-- With a positive page cap `m`, a crawl started at `cp` within the
allowed window fetches at most `sp + m - cp` further pages. -/
theorem crawl_trace_bound (fetch : Fetch) (q : String) (sp : Int) (m : Int)
    (hmpos : 0 < m) :
    ∀ (fuel : Nat) (cp : Int) (p : List Hadith × List String),
      sp ≤ cp → cp ≤ sp + m - 1 →
      ((crawl_loop fetch q sp (some m) fuel cp p).2.1.length : Int) ≤ sp + m - cp := by
  intro fuel
  induction fuel with
  | zero =>
    intro cp p hcp1 hcp2
    simp only [crawl_loop, List.length_nil]
    omega
  | succ fuel ih =>
    intro cp p hcp1 hcp2
    cases hsp : scrape_page fetch q cp with
    | error e =>
      rw [crawl_step_error sp (some m) fuel p hsp]
      simp only [List.length_singleton]
      omega
    | ok pr =>
      obtain ⟨hs, pag⟩ := pr
      by_cases hemp : hs.isEmpty
      · rw [crawl_step_empty sp (some m) fuel p hsp hemp]
        simp only [List.length_singleton]
        omega
      · have hemp2 : hs.isEmpty = false := by
          cases hval : hs.isEmpty
          · rfl
          · exact absurd hval hemp
        by_cases hmp : mp_reached (some m) sp cp
        · rw [crawl_step_stop_mp fuel p hsp hemp2 hmp]
          simp only [List.length_singleton]
          omega
        · have hmp2 : mp_reached (some m) sp cp = false := by
            cases hval : mp_reached (some m) sp cp
            · rfl
            · exact absurd hval hmp
          have hlt : ¬ (sp + m - 1 ≤ cp) := by
            intro hle
            have : mp_reached (some m) sp cp = true := by
              simp only [mp_reached, Bool.and_eq_true, bne_iff_ne, ne_eq,
                decide_eq_true_eq]
              exact ⟨by omega, hle⟩
            rw [this] at hmp2
            cases hmp2
          cases hnx : pag.has_next with
          | false =>
            rw [crawl_step_stop_next fuel p hsp hemp2 hmp2 hnx]
            simp only [List.length_singleton]
            omega
          | true =>
            rw [crawl_step_continue fuel p hsp hemp2 hmp2 hnx]
            have := ih (cp + 1) (addAll p hs) (by omega) (by omega)
            simp only [List.length_cons]
            push_cast
            push_cast at this
            omega


/-- Auxiliary: the last element of a cons with a nonempty tail. -/
theorem getLast_cons_ne {α : Type} (a : α) (l : List α) (h : l ≠ []) :
    (a :: l).getLast? = l.getLast? := by
  cases l with
  | nil => exact absurd rfl h
  | cons b t => simp [List.getLast?_cons_cons]

@[simp] theorem except_ok_ok (l : List Hadith) : except_ok (.ok l) = true := rfl

@[simp] theorem except_ok_error (e : String) : except_ok (.error e) = false := rfl

/-- If a fetched page of the crawl processed to zero records, the crawl
stopped there: that page is the last one fetched and the crawl result is a
success (end-of-results, not an error). -/
theorem crawl_zero_halts (fetch : Fetch) (q : String) (sp : Int) (mp : Option Int) :
    ∀ (fuel : Nat) (cp : Int) (p : List Hadith × List String) (pn : Int) (pg : Page),
      pn ∈ (crawl_loop fetch q sp mp fuel cp p).2.1 →
      fetch q pn = .ok pg →
      (process_page pg pn).1 = [] →
      (crawl_loop fetch q sp mp fuel cp p).2.1.getLast? = some pn ∧
      except_ok (crawl_loop fetch q sp mp fuel cp p).1 = true := by
  intro fuel
  induction fuel with
  | zero =>
    intro cp p pn pg hm hf hz
    simp [crawl_loop] at hm
  | succ fuel ih =>
    intro cp p pn pg hm hf hz
    cases hsp : scrape_page fetch q cp with
    | error e =>
      rw [crawl_step_error sp mp fuel p hsp] at hm
      simp only [List.mem_singleton] at hm
      subst hm
      have : scrape_page fetch q pn = .ok (process_page pg pn) := by
        unfold scrape_page
        rw [hf]
        rfl
      rw [hsp] at this
      exact absurd this (by simp)
    | ok pr =>
      obtain ⟨hs, pag⟩ := pr
      obtain ⟨pg2, hf2, hhs⟩ := scrape_page_ok_inv hsp
      by_cases hemp : hs.isEmpty
      · rw [crawl_step_empty sp mp fuel p hsp hemp] at hm ⊢
        simp only [List.mem_singleton] at hm
        subst hm
        exact ⟨rfl, rfl⟩
      · have hemp2 : hs.isEmpty = false := by
          cases hval : hs.isEmpty
          · rfl
          · exact absurd hval hemp
        have hcp_ne : pn = cp → False := by
          intro hpn
          subst hpn
          rw [hf] at hf2
          have hpg : pg2 = pg := by
            have h3 := hf2
            simp only [Except.ok.injEq] at h3
            exact h3.symm
          rw [hpg, hz] at hhs
          subst hhs
          simp at hemp2
        by_cases hmp : mp_reached mp sp cp
        · rw [crawl_step_stop_mp fuel p hsp hemp2 hmp] at hm
          simp only [List.mem_singleton] at hm
          exact absurd hm hcp_ne
        · have hmp2 : mp_reached mp sp cp = false := by
            cases hval : mp_reached mp sp cp
            · rfl
            · exact absurd hval hmp
          cases hnx : pag.has_next with
          | false =>
            rw [crawl_step_stop_next fuel p hsp hemp2 hmp2 hnx] at hm
            simp only [List.mem_singleton] at hm
            exact absurd hm hcp_ne
          | true =>
            rw [crawl_step_continue fuel p hsp hemp2 hmp2 hnx] at hm ⊢
            simp only [List.mem_cons] at hm
            rcases hm with hm | hm
            · exact absurd hm hcp_ne
            · have hrec := ih (cp + 1) (addAll p hs) pn pg hm hf hz
              have hne : (crawl_loop fetch q sp mp fuel (cp + 1) (addAll p hs)).2.1 ≠ [] := by
                intro hcontra
                rw [hcontra] at hm
                simp at hm
              constructor
              · rw [getLast_cons_ne _ _ hne]
                exact hrec.1
              · exact hrec.2

/-- If the transport failed on a fetched page of the crawl, that page is
the last one fetched and the failure is the crawl result, unchanged. -/
theorem crawl_error_prop (fetch : Fetch) (q : String) (sp : Int) (mp : Option Int) :
    ∀ (fuel : Nat) (cp : Int) (p : List Hadith × List String) (pn : Int) (e : String),
      pn ∈ (crawl_loop fetch q sp mp fuel cp p).2.1 →
      fetch q pn = .error e →
      (crawl_loop fetch q sp mp fuel cp p).1 = .error e ∧
      (crawl_loop fetch q sp mp fuel cp p).2.1.getLast? = some pn := by
  intro fuel
  induction fuel with
  | zero =>
    intro cp p pn e hm hf
    simp [crawl_loop] at hm
  | succ fuel ih =>
    intro cp p pn e hm hf
    cases hsp : scrape_page fetch q cp with
    | error e2 =>
      rw [crawl_step_error sp mp fuel p hsp] at hm ⊢
      simp only [List.mem_singleton] at hm
      subst hm
      have := scrape_page_error_inv hsp
      rw [hf] at this
      have he : e = e2 := by
        simp only [Except.error.injEq] at this
        exact this
      subst he
      exact ⟨rfl, rfl⟩
    | ok pr =>
      obtain ⟨hs, pag⟩ := pr
      obtain ⟨pg2, hf2, hhs⟩ := scrape_page_ok_inv hsp
      have hcp_ne : pn = cp → False := by
        intro hpn
        subst hpn
        rw [hf] at hf2
        exact absurd hf2 (by simp)
      by_cases hemp : hs.isEmpty
      · rw [crawl_step_empty sp mp fuel p hsp hemp] at hm
        simp only [List.mem_singleton] at hm
        exact absurd hm hcp_ne
      · have hemp2 : hs.isEmpty = false := by
          cases hval : hs.isEmpty
          · rfl
          · exact absurd hval hemp
        by_cases hmp : mp_reached mp sp cp
        · rw [crawl_step_stop_mp fuel p hsp hemp2 hmp] at hm
          simp only [List.mem_singleton] at hm
          exact absurd hm hcp_ne
        · have hmp2 : mp_reached mp sp cp = false := by
            cases hval : mp_reached mp sp cp
            · rfl
            · exact absurd hval hmp
          cases hnx : pag.has_next with
          | false =>
            rw [crawl_step_stop_next fuel p hsp hemp2 hmp2 hnx] at hm
            simp only [List.mem_singleton] at hm
            exact absurd hm hcp_ne
          | true =>
            rw [crawl_step_continue fuel p hsp hemp2 hmp2 hnx] at hm ⊢
            simp only [List.mem_cons] at hm
            rcases hm with hm | hm
            · exact absurd hm hcp_ne
            · have hrec := ih (cp + 1) (addAll p hs) pn e hm hf
              have hne : (crawl_loop fetch q sp mp fuel (cp + 1) (addAll p hs)).2.1 ≠ [] := by
                intro hcontra
                rw [hcontra] at hm
                simp at hm
              constructor
              · exact hrec.1
              · rw [getLast_cons_ne _ _ hne]
                exact hrec.2


/-- The truthiness test on the reference, in propositional form. -/
theorem hadith_ref_ok_iff (h : Hadith) :
    hadith_ref_ok h = true ↔ h.reference ≠ none ∧ h.reference ≠ some "" := by
  unfold hadith_ref_ok
  cases href : h.reference with
  | none => simp
  | some r => simp [bne_iff_ne]

@[simp] theorem process_page_fst (page : Page) (pageNo : Int) :
    (process_page page pageNo).1 = page.containers.foldl (process_step pageNo) [] := rfl

@[simp] theorem process_page_snd (page : Page) (pageNo : Int) :
    (process_page page pageNo).2 = extract_pagination_info page := rfl

/-- Every record the extraction fold emits either was in the accumulator or
is an extracted record with a truthy reference and the page number stored
under `pages`. -/
theorem process_fold_mem (pageNo : Int) :
    ∀ (cs : List HadithContainer) (acc : List Hadith) (h : Hadith),
      h ∈ cs.foldl (process_step pageNo) acc →
      h ∈ acc ∨ ∃ c, c ∈ cs ∧
        hadith_ref_ok (extract_complete_hadith c) = true ∧
        h = { extract_complete_hadith c with pages := some pageNo } := by
  intro cs
  induction cs with
  | nil => intro acc h hm; exact Or.inl hm
  | cons c t ih =>
    intro acc h hm
    rw [List.foldl_cons] at hm
    rcases ih _ _ hm with hm2 | ⟨c2, hc2, hok, heq⟩
    · unfold process_step at hm2
      by_cases hok : hadith_ref_ok (extract_complete_hadith c)
      · rw [if_pos hok] at hm2
        rcases List.mem_append.mp hm2 with hm3 | hm3
        · exact Or.inl hm3
        · simp only [List.mem_singleton] at hm3
          exact Or.inr ⟨c, List.mem_cons_self _ _, hok, hm3⟩
      · rw [if_neg hok] at hm2
        exact Or.inl hm2
    · exact Or.inr ⟨c2, List.mem_cons_of_mem _ hc2, hok, heq⟩

/-- The extraction fold appends exactly one record per container whose
extracted reference is truthy. -/
theorem process_fold_length (pageNo : Int) :
    ∀ (cs : List HadithContainer) (acc : List Hadith),
      (cs.foldl (process_step pageNo) acc).length =
        acc.length +
          (cs.filter (fun c => hadith_ref_ok (extract_complete_hadith c))).length := by
  intro cs
  induction cs with
  | nil => intro acc; simp
  | cons c t ih =>
    intro acc
    rw [List.foldl_cons, ih]
    unfold process_step
    by_cases hok : hadith_ref_ok (extract_complete_hadith c)
    · rw [if_pos hok, List.filter_cons, if_pos hok]
      simp only [List.length_append, List.length_cons, List.length_nil]
      omega
    · have hok2 : hadith_ref_ok (extract_complete_hadith c) = false := by
        cases hval : hadith_ref_ok (extract_complete_hadith c)
        · rfl
        · exact absurd hval hok
      rw [if_neg hok, List.filter_cons, if_neg (by simp [hok2])]

/-- Record updates used by `scrape_page` leave `reference` and
`page_scraped` untouched while storing the page number under `pages`. -/
theorem with_pages_fields (h : Hadith) (pn : Int) :
    ({ h with pages := some pn } : Hadith).reference = h.reference ∧
    ({ h with pages := some pn } : Hadith).page_scraped = h.page_scraped ∧
    ({ h with pages := some pn } : Hadith).pages = some pn :=
  ⟨rfl, rfl, rfl⟩

/-- Under the hypothesis that every `english_grade` cell holds the literal
placeholder, the grade-cell fold never writes `grade_english`. -/
theorem grade_fold_placeholder (tds : List Td)
    (hall : ∀ td ∈ tds, td.classes.contains "english_grade" = true → td.text = "Grade:") :
    ∀ h : Hadith, (tds.foldl apply_grade_td h).grade_english = h.grade_english := by
  induction tds with
  | nil => intro h; rfl
  | cons td t ih =>
    intro h
    rw [List.foldl_cons]
    have hstep : (apply_grade_td h td).grade_english = h.grade_english := by
      unfold apply_grade_td
      by_cases hcls : td.classes.contains "english_grade" = true
      · have htxt := hall td (List.mem_cons_self _ _) hcls
        rw [if_pos hcls, if_neg (fun hc => hc.2 htxt)]
      · rw [if_neg hcls]
        split_ifs <;> rfl
    rw [ih (fun td2 hm => hall td2 (List.mem_cons_of_mem _ hm)), hstep]

/-- When every `english_grade` cell of the grading table holds the literal
placeholder `"Grade:"`, the extracted record has no English grade. -/
theorem extract_grade_english_none (c : HadithContainer)
    (hc : ∀ tds, c.grade_tds = some tds →
      ∀ td ∈ tds, td.classes.contains "english_grade" = true → td.text = "Grade:") :
    (extract_complete_hadith c).grade_english = none := by
  unfold extract_complete_hadith
  rw [apply_ref_table_grade_english]
  unfold apply_grades
  cases hg : c.grade_tds with
  | none => simp
  | some tds =>
    rw [grade_fold_placeholder tds (hc tds hg)]
    simp

/-- The pager step never touches the three showing-derived fields. -/
theorem apply_pager_keeps (page : Page) (pi : PaginationInfo) :
    (apply_pager page pi).total_results = pi.total_results ∧
    (apply_pager page pi).total_pages = pi.total_pages ∧
    (apply_pager page pi).results_on_page = pi.results_on_page := by
  unfold apply_pager
  rcases page.pager with _ | pg
  · exact ⟨rfl, rfl, rfl⟩
  · dsimp only
    rcases pg.selected_a_text with _ | txt
    · rcases pg.next_classes with _ | n <;> rcases pg.prev_classes with _ | p2 <;>
        dsimp only <;>
        first
          | (split_ifs <;> exact ⟨rfl, rfl, rfl⟩)
          | exact ⟨rfl, rfl, rfl⟩
    · rcases htxt : py_int (py_strip txt) with _ | nval <;>
        simp only [htxt] <;>
        rcases pg.next_classes with _ | n <;> rcases pg.prev_classes with _ | p2 <;>
        dsimp only <;>
        first
          | (split_ifs <;> exact ⟨rfl, rfl, rfl⟩)
          | exact ⟨rfl, rfl, rfl⟩


/-- Every record `process_page` emits has a truthy reference. -/
theorem process_page_ref_ok (page : Page) (pageNo : Int) (h : Hadith)
    (hm : h ∈ (process_page page pageNo).1) :
    h.reference ≠ none ∧ h.reference ≠ some "" := by
  rw [process_page_fst] at hm
  rcases process_fold_mem pageNo _ _ _ hm with h0 | ⟨c, _, hok, heq⟩
  · simp at h0
  · subst heq
    exact (hadith_ref_ok_iff _).mp hok

/-- Every record `process_page` emits keeps `page_scraped` unset and
stores the page number under `pages`. -/
theorem process_page_pages_set (page : Page) (pageNo : Int) (h : Hadith)
    (hm : h ∈ (process_page page pageNo).1) :
    h.page_scraped = none ∧ h.pages = some pageNo := by
  rw [process_page_fst] at hm
  rcases process_fold_mem pageNo _ _ _ hm with h0 | ⟨c, _, _, heq⟩
  · simp at h0
  · subst heq
    exact ⟨(extract_page_scraped_pages c).1, rfl⟩

/-- Every record of a successful crawl comes, through the dedup loop, from
some successfully processed page. -/
theorem crawl_out_mem (fetch : Fetch) (q : String) (sp : Int) (mp : Option Int)
    (fuel : Nat) (out : List Hadith) (h : Hadith)
    (hres : scrape_all_pages fetch q sp mp fuel = .ok out) (hm : h ∈ out) :
    ∃ (pn : Int) (pg : Page), fetch q pn = .ok pg ∧ h ∈ (process_page pg pn).1 := by
  unfold scrape_all_pages at hres
  have hout := crawl_ok_addAll fetch q sp mp fuel sp ([], []) out hres
  rw [hout] at hm
  rcases addAll_mem _ _ _ hm with h0 | hraw
  · simp at h0
  · exact crawl_raw_mem fetch q sp mp fuel sp ([], []) h hraw


/-! ## Claim theorems -/

/-- C2: when a crawl succeeds, for every non-empty reference string `r` the
aggregate output restricted to `r` is exactly the first record carrying `r`
in the concatenation of the processed pages' record lists (page order).
Hence two processed pages sharing a record with an identical reference
contribute exactly one aggregate record for it — the one from the
earlier-processed page — and deduplication is keyed solely on the
reference string, later duplicates being silently dropped. -/
theorem C2_dedup_first_wins (fetch : Fetch) (q : String) (sp : Int) (mp : Option Int)
    (fuel : Nat) (out : List Hadith) (r : String)
    (hres : scrape_all_pages fetch q sp mp fuel = .ok out) (hr : r ≠ "") :
    out.filter (ref_is r) =
      ((scrape_pages_raw fetch q sp mp fuel).filter (ref_is r)).take 1 := by
  unfold scrape_all_pages at hres
  have hout := crawl_ok_addAll fetch q sp mp fuel sp ([], []) out hres
  rw [hout]
  unfold scrape_pages_raw
  rw [addAll_filter r hr]
  simp

/-- Witness for C2 on the two-page fixture sharing reference `"A"`. -/
theorem C2_dedup_first_wins_witness :
    scrape_all_pages fetchC2 "q" 1 none 10 = .ok outC2 ∧
    outC2.filter (ref_is "A") =
      ((scrape_pages_raw fetchC2 "q" 1 none 10).filter (ref_is "A")).take 1 := by
  have hok : scrape_all_pages fetchC2 "q" 1 none 10 = .ok outC2 := rfl
  exact ⟨hok, C2_dedup_first_wins fetchC2 "q" 1 none 10 outC2 "A" hok (by decide)⟩

/-- C3: every record of `process_page` (the pure part of `scrape_page`)
has a present, non-empty reference; the records list has exactly one entry
per result block whose extraction yields a truthy reference, so blocks
with an empty or absent reference contribute nothing; and the invariant
carries to every record of a successful `scrape_all_pages` crawl. -/
theorem C3_reference_nonempty :
    (∀ (page : Page) (pageNo : Int) (h : Hadith), h ∈ (process_page page pageNo).1 →
      h.reference ≠ none ∧ h.reference ≠ some "") ∧
    (∀ (page : Page) (pageNo : Int),
      (process_page page pageNo).1.length =
        (page.containers.filter
          (fun c => hadith_ref_ok (extract_complete_hadith c))).length) ∧
    (∀ (fetch : Fetch) (q : String) (sp : Int) (mp : Option Int) (fuel : Nat)
       (out : List Hadith) (h : Hadith),
       scrape_all_pages fetch q sp mp fuel = .ok out → h ∈ out →
       h.reference ≠ none ∧ h.reference ≠ some "") := by
  refine ⟨process_page_ref_ok, ?_, ?_⟩
  · intro page pageNo
    rw [process_page_fst, process_fold_length]
    simp
  · intro fetch q sp mp fuel out h hres hm
    obtain ⟨pn, pg, _, hmem⟩ := crawl_out_mem fetch q sp mp fuel out h hres hm
    exact process_page_ref_ok pg pn h hmem

/-- Witness for C3 on a three-block page: one truthy reference, one empty,
one absent. -/
theorem C3_reference_nonempty_witness :
    (recC3.reference ≠ none ∧ recC3.reference ≠ some "") ∧
    (process_page pageC3 4).1.length = 1 := by
  have hl : (process_page pageC3 4).1 = [recC3] := rfl
  have hm : recC3 ∈ (process_page pageC3 4).1 := by
    rw [hl]; exact List.mem_singleton.mpr rfl
  refine ⟨C3_reference_nonempty.1 pageC3 4 recC3 hm, ?_⟩
  rw [C3_reference_nonempty.2.1 pageC3 4]
  rfl

/-- C4: when the `Showing start-end of total` marker is found,
`total_results` is the total, `results_on_page` is `end - start + 1` and
`total_pages` is `(total + 99) / 100`, the integer ceiling of
`total / 100` (bounds included; in particular 250 gives 3 and 200 gives
2); when no marker is found, `total_pages` stays at its default 1 and
`total_results` at 0. -/
theorem C4_pagination_ceil (page : Page) (s e t : Nat) :
    (page.showing = some (s, e, t) →
      (extract_pagination_info page).total_results = t ∧
      (extract_pagination_info page).results_on_page = (e : Int) - (s : Int) + 1 ∧
      (extract_pagination_info page).total_pages = (t + 99) / 100 ∧
      t ≤ 100 * ((t + 99) / 100) ∧
      (0 < t → 100 * ((t + 99) / 100 - 1) < t) ∧
      (t = 250 → (extract_pagination_info page).total_pages = 3) ∧
      (t = 200 → (extract_pagination_info page).total_pages = 2)) ∧
    (page.showing = none →
      (extract_pagination_info page).total_pages = 1 ∧
      (extract_pagination_info page).total_results = 0) := by
  obtain ⟨k1, k2, k3⟩ := apply_pager_keeps page (apply_showing page pag_default)
  constructor
  · intro hshow
    have h1 : (apply_showing page pag_default).total_results = t := by
      unfold apply_showing; rw [hshow]
    have h2 : (apply_showing page pag_default).results_on_page =
        (e : Int) - (s : Int) + 1 := by
      unfold apply_showing; rw [hshow]
    have h3 : (apply_showing page pag_default).total_pages = (t + 99) / 100 := by
      unfold apply_showing; rw [hshow]
    unfold extract_pagination_info
    refine ⟨by rw [k1, h1], by rw [k3, h2], by rw [k2, h3], by omega,
      fun hpos => by omega, ?_, ?_⟩
    · intro ht; rw [k2, h3, ht]
    · intro ht; rw [k2, h3, ht]
  · intro hshow
    have h0 : apply_showing page pag_default = pag_default := by
      unfold apply_showing; rw [hshow]
    unfold extract_pagination_info
    exact ⟨by rw [k2, h0]; rfl, by rw [k1, h0]; rfl⟩

/-- Witness for C4 at `Showing 101-200 of 250`. -/
theorem C4_pagination_ceil_witness :
    (extract_pagination_info pageC4).total_results = 250 ∧
    (extract_pagination_info pageC4).results_on_page = 100 ∧
    (extract_pagination_info pageC4).total_pages = 3 := by
  obtain ⟨h1, h2, _, _, _, h6, _⟩ := (C4_pagination_ceil pageC4 101 200 250).1 rfl
  exact ⟨h1, by rw [h2]; norm_num, h6 rfl⟩

/-- C10: `extract_complete_hadith` initialises `page_scraped` to `None`
and no operation ever assigns it; the page index is stored instead under
the separate `pages` key, which the extractor leaves absent and
`scrape_page` fills with the fetched page's number — an invariant that
carries to every record of a successful crawl. -/
theorem C10_page_scraped_none :
    (∀ c : HadithContainer, (extract_complete_hadith c).page_scraped = none ∧
      (extract_complete_hadith c).pages = none) ∧
    (∀ (page : Page) (pageNo : Int) (h : Hadith), h ∈ (process_page page pageNo).1 →
      h.page_scraped = none ∧ h.pages = some pageNo) ∧
    (∀ (fetch : Fetch) (q : String) (sp : Int) (mp : Option Int) (fuel : Nat)
       (out : List Hadith) (h : Hadith),
       scrape_all_pages fetch q sp mp fuel = .ok out → h ∈ out →
       h.page_scraped = none ∧ h.pages ≠ none) := by
  refine ⟨extract_page_scraped_pages, process_page_pages_set, ?_⟩
  intro fetch q sp mp fuel out h hres hm
  obtain ⟨pn, pg, _, hmem⟩ := crawl_out_mem fetch q sp mp fuel out h hres hm
  obtain ⟨hps, hpg⟩ := process_page_pages_set pg pn h hmem
  exact ⟨hps, by rw [hpg]; simp⟩

/-- Witness for C10 on a one-record page processed as page 2. -/
theorem C10_page_scraped_none_witness :
    ((extract_complete_hadith {}).page_scraped = none ∧
      (extract_complete_hadith {}).pages = none) ∧
    recC10.page_scraped = none ∧ recC10.pages = some 2 := by
  have hl : (process_page pageC10 2).1 = [recC10] := rfl
  have hm : recC10 ∈ (process_page pageC10 2).1 := by
    rw [hl]; exact List.mem_singleton.mpr rfl
  exact ⟨C10_page_scraped_none.1 {}, C10_page_scraped_none.2.1 pageC10 2 recC10 hm⟩


/-- C1 counterexample: calling `scrape_all_pages` itself with
`max_pages = 0` — which is `0 ≤ 1` — fetches two pages on a transport
whose first page advertises a next page, because `if max_pages and ...`
treats `0` as falsy (no limit), not as 1.  So inside `scrape_all_pages`
a `maxPages` of 0 is not normalized to 1, and more than one page can be
fetched although `maxPages ≤ 1`. -/
theorem C1_counterexample :
    (0 : Int) ≤ 1 ∧ scrape_pages_trace fetchC1 "q" 1 (some 0) 10 = [1, 2] :=
  ⟨by norm_num, rfl⟩

/-- C1 amended: at least one page is always fetched (the crawl starts by
fetching `startPage`); a `maxPages` that is at most 1 **and nonzero** (so
1 itself or any negative value) stops the crawl after at most one page;
the normalization of 0-or-negative `maxPages` to 1 is performed by the
`search` endpoint (`max(1, int(...))`) before `scrape_all_pages` is
called — `scrape_all_pages` itself treats `maxPages = 0` as "no limit". -/
theorem C1_max_pages_normalization :
    (∀ (fetch : Fetch) (q : String) (sp : Int) (mp : Option Int) (fuel : Nat),
      1 ≤ fuel → (scrape_pages_trace fetch q sp mp fuel).head? = some sp) ∧
    (∀ (fetch : Fetch) (q : String) (sp m : Int) (fuel : Nat),
      m ≤ 1 → m ≠ 0 →
      (scrape_pages_trace fetch q sp (some m) fuel).length ≤ 1) ∧
    (∀ (s : String) (v : Int), py_int (py_strip s) = some v → v ≤ 0 →
      parse_max_pages s = some 1) := by
  refine ⟨?_, ?_, ?_⟩
  · intro fetch q sp mp fuel hfuel
    unfold scrape_pages_trace
    exact crawl_trace_head fetch q sp mp fuel sp ([], []) hfuel
  · intro fetch q sp m fuel hm1 hm0
    unfold scrape_pages_trace
    exact crawl_trace_short fetch q sp m hm1 hm0 fuel sp ([], []) le_rfl
  · intro s v hv hv0
    unfold parse_max_pages
    have hne : py_strip s ≠ "" := by
      intro hc
      rw [hc] at hv
      have hnone : py_int "" = none := rfl
      rw [hnone] at hv
      cases hv
    rw [if_pos hne, hv]
    dsimp only
    have hmax : max 1 v = 1 := by omega
    rw [hmax]

/-- Witness for the amended C1: a negative cap fetches exactly one page,
and the endpoint's parser normalizes `"-5"` to 1. -/
theorem C1_max_pages_normalization_witness :
    (scrape_pages_trace fetchC1 "q" 1 (some (-3)) 5).head? = some 1 ∧
    (scrape_pages_trace fetchC1 "q" 1 (some (-3)) 5).length ≤ 1 ∧
    parse_max_pages "-5" = some 1 := by
  refine ⟨C1_max_pages_normalization.1 fetchC1 "q" 1 (some (-3)) 5 (by norm_num),
    C1_max_pages_normalization.2.1 fetchC1 "q" 1 (-3) 5 (by norm_num) (by norm_num),
    C1_max_pages_normalization.2.2 "-5" (-5) (by decide) (by norm_num)⟩

/-- C5: with a positive `maxPages = m` the crawl fetches at most `m`
pages, and with `maxPages = 1` it fetches exactly `[startPage]` — one
page, the start page — regardless of that page's has-next flag. -/
theorem C5_max_pages_bound (fetch : Fetch) (q : String) (sp m : Int) (fuel : Nat)
    (hm : 0 < m) :
    ((scrape_pages_trace fetch q sp (some m) fuel).length : Int) ≤ m ∧
    (m = 1 → 1 ≤ fuel → scrape_pages_trace fetch q sp (some m) fuel = [sp]) := by
  constructor
  · have hb := crawl_trace_bound fetch q sp m hm fuel sp ([], []) le_rfl (by omega)
    unfold scrape_pages_trace
    omega
  · intro hm1 hfuel
    subst hm1
    have hlen := crawl_trace_short fetch q sp 1 le_rfl one_ne_zero fuel sp ([], []) le_rfl
    have hhead := crawl_trace_head fetch q sp (some 1) fuel sp ([], []) hfuel
    unfold scrape_pages_trace at *
    cases htr : (crawl_loop fetch q sp (some 1) fuel sp ([], [])).2.1 with
    | nil => rw [htr] at hhead; cases hhead
    | cons a l =>
      rw [htr] at hhead hlen
      simp only [List.head?_cons, Option.some.injEq] at hhead
      subst hhead
      cases l with
      | nil => rfl
      | cons b t => simp at hlen

/-- Witness for C5: `maxPages = 1`, `startPage = 5`, on a transport whose
every page advertises a next page: exactly page 5 is fetched. -/
theorem C5_max_pages_bound_witness :
    ((scrape_pages_trace fetchC5 "q" 5 (some 1) 9).length : Int) ≤ 1 ∧
    scrape_pages_trace fetchC5 "q" 5 (some 1) 9 = [5] := by
  obtain ⟨h1, h2⟩ := C5_max_pages_bound fetchC5 "q" 5 1 9 (by norm_num)
  exact ⟨h1, h2 rfl (by norm_num)⟩

/-- C6: if a fetched page of the crawl processed to zero records, the
crawl stopped right there — that page is the last fetched one — and the
crawl result is a success (end-of-results), not an error, regardless of
that page's has-next flag. -/
theorem C6_zero_records_halt (fetch : Fetch) (q : String) (sp : Int) (mp : Option Int)
    (fuel : Nat) (pn : Int) (pg : Page)
    (hmem : pn ∈ scrape_pages_trace fetch q sp mp fuel)
    (hf : fetch q pn = .ok pg)
    (hz : (process_page pg pn).1 = []) :
    (scrape_pages_trace fetch q sp mp fuel).getLast? = some pn ∧
    except_ok (scrape_all_pages fetch q sp mp fuel) = true := by
  unfold scrape_pages_trace at *
  unfold scrape_all_pages
  exact crawl_zero_halts fetch q sp mp fuel sp ([], []) pn pg hmem hf hz

/-- Witness for C6: page 2 has zero result blocks but advertises a next
page; the crawl stops at page 2 with a success. -/
theorem C6_zero_records_halt_witness :
    (scrape_pages_trace fetchC6 "q" 1 none 10).getLast? = some 2 ∧
    except_ok (scrape_all_pages fetchC6 "q" 1 none 10) = true := by
  apply C6_zero_records_halt fetchC6 "q" 1 none 10 2 pageC6b
  · have htr : scrape_pages_trace fetchC6 "q" 1 none 10 = [1, 2] := rfl
    rw [htr]
    exact List.mem_cons_of_mem _ (List.mem_singleton.mpr rfl)
  · rfl
  · rfl

/-- C7: a grading-table cell classed `english_grade` whose text is exactly
the literal `"Grade:"` leaves the English grade unchanged (in particular,
with only such cells the extracted record's grade stays unset — the
placeholder is never stored), while a cell with any other non-empty text
sets the English grade to that text. -/
theorem C7_grade_placeholder (h : Hadith) (td : Td) (c : HadithContainer)
    (tds : List Td) :
    (td.classes.contains "english_grade" = true → td.text = "Grade:" →
      (apply_grade_td h td).grade_english = h.grade_english) ∧
    (td.classes.contains "english_grade" = true → td.text ≠ "" →
      td.text ≠ "Grade:" →
      (apply_grade_td h td).grade_english = some td.text) ∧
    (c.grade_tds = some tds →
      (∀ td2 ∈ tds, td2.classes.contains "english_grade" = true →
        td2.text = "Grade:") →
      (extract_complete_hadith c).grade_english = none) := by
  refine ⟨?_, ?_, ?_⟩
  · intro hcls htxt
    unfold apply_grade_td
    rw [if_pos hcls, if_neg (fun hcon => hcon.2 htxt)]
  · intro hcls ht1 ht2
    unfold apply_grade_td
    rw [if_pos hcls, if_pos ⟨ht1, ht2⟩]
  · intro hg hall
    apply extract_grade_english_none
    intro tds2 hg2
    rw [hg] at hg2
    have heq : tds = tds2 := by simpa using hg2
    rw [← heq]
    exact hall

/-- Witness for C7: the literal placeholder leaves the grade unset, a
real grade text is stored. -/
theorem C7_grade_placeholder_witness :
    (apply_grade_td {} { classes := ["english_grade"], text := "Grade:" }).grade_english =
      ({} : Hadith).grade_english ∧
    (apply_grade_td {} { classes := ["english_grade"], text := "Sahih" }).grade_english =
      some "Sahih" ∧
    (extract_complete_hadith
      { grade_tds := some [{ classes := ["english_grade"], text := "Grade:" }] }).grade_english =
      none := by
  refine ⟨(C7_grade_placeholder {} { classes := ["english_grade"], text := "Grade:" }
      {} []).1 (by decide) rfl,
    (C7_grade_placeholder {} { classes := ["english_grade"], text := "Sahih" }
      {} []).2.1 (by decide) (by decide) (by decide),
    (C7_grade_placeholder {} { classes := ["english_grade"], text := "Grade:" }
      { grade_tds := some [{ classes := ["english_grade"], text := "Grade:" }] }
      [{ classes := ["english_grade"], text := "Grade:" }]).2.2 rfl (by decide)⟩

/-- C8: a transport failure on any fetched page of the crawl is never
retried: that page is the last one fetched and the failure is the crawl's
result, unchanged (no records are returned); at the endpoint, a transport
failure on page 1 of a non-empty query surfaces as the distinguishable
upstream-error response with the original failure detail, with no further
page fetched. -/
theorem C8_transport_error :
    (∀ (fetch : Fetch) (q : String) (sp : Int) (mp : Option Int) (fuel : Nat)
       (pn : Int) (e : String),
       pn ∈ scrape_pages_trace fetch q sp mp fuel →
       fetch q pn = .error e →
       scrape_all_pages fetch q sp mp fuel = .error e ∧
       (scrape_pages_trace fetch q sp mp fuel).getLast? = some pn) ∧
    (∀ (fetch : Fetch) (q_raw mp_raw : String) (fuel : Nat) (e : String),
       py_strip q_raw ≠ "" → 1 ≤ fuel → fetch (py_strip q_raw) 1 = .error e →
       (search fetch q_raw mp_raw fuel).1 =
         .upstreamError "Upstream request failed" e ∧
       (search fetch q_raw mp_raw fuel).2 = [1]) := by
  constructor
  · intro fetch q sp mp fuel pn e hmem hf
    unfold scrape_pages_trace at *
    unfold scrape_all_pages
    exact crawl_error_prop fetch q sp mp fuel sp ([], []) pn e hmem hf
  · intro fetch q_raw mp_raw fuel e hq hfuel hf
    obtain ⟨n, hn⟩ : ∃ n, fuel = n + 1 := ⟨fuel - 1, by omega⟩
    subst hn
    have hsp : scrape_page fetch (py_strip q_raw) 1 = .error e := by
      unfold scrape_page
      rw [hf]
      rfl
    unfold search
    rw [if_neg hq]
    dsimp only
    rw [crawl_step_error 1 (parse_max_pages mp_raw) n ([], []) hsp]
    exact ⟨rfl, rfl⟩

/-- Witness for C8: a transport timing out on every page. -/
theorem C8_transport_error_witness :
    (scrape_all_pages fetchC8 "q" 1 none 3 = .error "timeout" ∧
     (scrape_pages_trace fetchC8 "q" 1 none 3).getLast? = some 1) ∧
    ((search fetchC8 " q " "" 3).1 = .upstreamError "Upstream request failed" "timeout" ∧
     (search fetchC8 " q " "" 3).2 = [1]) := by
  constructor
  · apply C8_transport_error.1 fetchC8 "q" 1 none 3 1 "timeout"
    · have htr : scrape_pages_trace fetchC8 "q" 1 none 3 = [1] := rfl
      rw [htr]
      exact List.mem_singleton.mpr rfl
    · rfl
  · exact C8_transport_error.2 fetchC8 " q " "" 3 "timeout" (by decide) (by norm_num) rfl

/-- C9: a request whose query is empty after stripping whitespace is
rejected with the client-input error response before any fetch is
attempted: the fetched-pages trace is empty and the transport is never
consulted. -/
theorem C9_empty_query (fetch : Fetch) (q_raw mp_raw : String) (fuel : Nat)
    (hq : py_strip q_raw = "") :
    search fetch q_raw mp_raw fuel =
      (.clientError "Missing required query parameter: q", []) := by
  unfold search
  simp [hq]

/-- Witness for C9: an all-whitespace query. -/
theorem C9_empty_query_witness :
    search fetchC8 "   " "5" 3 =
      (.clientError "Missing required query parameter: q", []) :=
  C9_empty_query fetchC8 "   " "5" 3 (by decide)

end HadithSearcher
